import Mathlib

/-!
# Verification of the Dir-Fuzzing scan controller

Shallow embedding of `src/directory_fuzzer.tsx` (the `DirectoryFuzzer`
component).  JavaScript strings are modelled as Lean `String`; the string
methods used by the source (`startsWith`, `endsWith`, `slice(0, -1)`,
`trim`) are given list-based executable models below.  The asynchronous
scan loop is modelled as a pure function over an explicit environment that
records, for each loop iteration, what the abort signal and the `fetch`
call did.
-/

namespace DirFuzz

/-- Model of JS `s.startsWith(pre)`. -/
def startsWithS (pre s : String) : Bool :=
  pre.data.isPrefixOf s.data

/-- Model of JS `s.endsWith(suf)`. -/
def endsWithS (suf s : String) : Bool :=
  suf.data.isSuffixOf s.data

/-- Model of JS `s.slice(0, -1)`: drop the last character. -/
def sliceDropLast (s : String) : String :=
  ⟨s.data.dropLast⟩

/-- Model of JS `s.trim()`: remove leading and trailing whitespace. -/
def trimS (s : String) : String :=
  ⟨((s.data.dropWhile Char.isWhitespace).reverse.dropWhile Char.isWhitespace).reverse⟩

/-- The scheme-qualification step of `normalizeUrl`
(`src/directory_fuzzer.tsx` lines 27–29): prepend `https://` when the
input starts with neither `http://` nor `https://`. -/
def schemeQualified (url : String) : String :=
  if !startsWithS "http://" url && !startsWithS "https://" url then
    "https://" ++ url
  else url

/-- `normalizeUrl` (`src/directory_fuzzer.tsx` lines 26–31): qualify the
scheme, then strip one trailing `/` if present. -/
def normalizeUrl (url : String) : String :=
  let url := schemeQualified url
  if endsWithS "/" url then sliceDropLast url else url

/-- The Target Resolver contract as the spec words it (§4.1): if the raw
input lacks a recognized scheme prefix, prepend the default secure scheme;
strip exactly one trailing path separator if present. -/
def resolveSpec (rawInput : String) : String :=
  let qualified :=
    if startsWithS "http://" rawInput || startsWithS "https://" rawInput then
      rawInput
    else "https://" ++ rawInput
  if endsWithS "/" qualified then sliceDropLast qualified else qualified

/-- The hard-coded wordlist `commonPaths` (`src/directory_fuzzer.tsx`
lines 13–24).  The scan loop below is parametrized by an arbitrary
wordlist, as the spec treats the wordlist as injectable configuration;
this constant is the concrete list the source iterates. -/
def commonPaths : List String :=
  ["admin", "administrator", "login", "dashboard", "wp-admin", "phpmyadmin",
   "cpanel", "panel", "control", "api", "backup", "backups", "db", "database",
   "config", "configuration", "settings", "setup", "install", "old", "new",
   "test", "demo", "dev", "development", "staging", "beta", "temp", "tmp",
   "private", "secret", "hidden", "uploads", "images", "img", "files", "docs",
   "documents", "download", "downloads", "static", "assets", "css", "js",
   "scripts", "includes", "inc", "lib", "libraries", "vendor", "node_modules",
   "logs", "log", "errors", "debug", "trace", "admin.php", "login.php",
   "config.php", "database.php", ".git", ".env", ".htaccess", "robots.txt",
   "sitemap.xml", "wp-config.php", "web.config", "README.md", "LICENSE"]

/-- What the `fetch` call inside `checkPath` did for one probe:
it resolved with an opaque no-cors response (status unreadable), it
rejected with a non-abort error (transport failure), or it rejected with
`AbortError` because the abort signal fired while the request was in
flight (this also covers a `fetch` issued on an already-aborted signal). -/
inductive FetchOutcome
  | opaqueOk
  | transportError (msg : String)
  | abortError
deriving DecidableEq

/-- A thrown JS exception, as far as `checkPath` and `startScan`
distinguish them: `error.name === 'AbortError'` or anything else
(carrying `error.message`). -/
inductive JsError
  | abortError
  | other (msg : String)
deriving DecidableEq

/-- One Probe Result record as built by `checkPath`
(`src/directory_fuzzer.tsx` lines 44–50 and 55–61).  The
`new Date().toISOString()` timestamp is supplied externally as an
uninterpreted string. -/
structure ProbeResult where
  path : String
  url : String
  status : String
  found : Bool
  timestamp : String
deriving DecidableEq

/-- The running tally `{ found, notFound, errors }`. -/
structure Stats where
  found : Nat
  notFound : Nat
  errors : Nat
deriving DecidableEq

/-- The component state touched by the scan: `isScanning`, `isPaused`,
`results` (stored newest-first, since the source prepends), `progress`
(the percentage `((i+1)/total)*100`, modelled as a rational), `stats`. -/
structure ScanState where
  isScanning : Bool
  isPaused : Bool
  results : List ProbeResult
  progress : ℚ
  stats : Stats
deriving DecidableEq

/-- `checkPath` (`src/directory_fuzzer.tsx` lines 33–63): build
`url = baseUrl + "/" + path`, issue the fetch; on resolution return a
record with status `'Unknown (CORS)'` and `found: true`; on rejection
rethrow `AbortError`, and convert any other error into a record with
`status = error.message` and `found: false`. -/
def checkPath (baseUrl path now : String) (fetch : FetchOutcome) :
    Except JsError ProbeResult :=
  let url := baseUrl ++ "/" ++ path
  match fetch with
  | .opaqueOk =>
      .ok { path := path, url := url, status := "Unknown (CORS)",
            found := true, timestamp := now }
  | .transportError msg =>
      .ok { path := path, url := url, status := msg,
            found := false, timestamp := now }
  | .abortError => .error .abortError

/-- What one iteration of the `startScan` loop observed from the outside
world: either `abortControllerRef.current?.signal.aborted` was already
`true` at the top of the iteration (line 83), or the iteration went on to
call `checkPath` with the given fetch outcome.

The pause block (lines 84–93) is not represented: the `isPaused` read
inside the loop is the value captured by the `startScan` closure, which is
`false` for the whole run, and in any case the block appends no result and
changes no statistic, so it is invisible to the state modelled here. -/
inductive IterEvent
  | abortedAtTop
  | probe (fetch : FetchOutcome)
deriving DecidableEq

/-- An iteration event that does not end the loop: a probe whose fetch is
not aborted. -/
def IterEvent.nonAborting : IterEvent → Bool
  | .probe .opaqueOk => true
  | .probe (.transportError _) => true
  | _ => false

/-- How the loop of `startScan` ended: it exhausted the wordlist
(`completed`) or it exited early via `break`, which happens exactly when
the abort signal fired, i.e. when `stopScan` was called (`stopped`).  The
source collapses both into `setIsScanning(false)`; this tag records which
exit was taken. -/
inductive ScanEnd
  | completed
  | stopped
deriving DecidableEq

/-- The `for` loop of `startScan` (`src/directory_fuzzer.tsx` lines
82–116), as a function of the remaining wordlist.  `i` is the loop index,
`total` the wordlist length (used for the progress fraction), `env` the
per-iteration environment, `now` the timestamp source.  Per iteration:
check the abort signal; run `checkPath`; on a returned record prepend it
to `results` (line 98), bump `found` or `notFound` (lines 100–104), update
progress (line 107); on `AbortError` `break` (line 112); on any other
exception bump `errors` and continue (lines 113–114) — a branch that is
unreachable because `checkPath` only ever throws `AbortError`.  The
inter-probe delay (line 110) suspends but changes no state. -/
def scanLoop (baseUrl : String) (total : Nat) (now : Nat → String)
    (env : Nat → IterEvent) :
    List String → Nat → ScanState → ScanState × ScanEnd
  | [], _, st => (st, .completed)
  | p :: rest, i, st =>
    match env i with
    | .abortedAtTop => (st, .stopped)
    | .probe f =>
      match checkPath baseUrl p (now i) f with
      | .ok r =>
          let stats :=
            if r.found then { st.stats with found := st.stats.found + 1 }
            else { st.stats with notFound := st.stats.notFound + 1 }
          scanLoop baseUrl total now env rest (i + 1)
            { st with results := r :: st.results, stats := stats,
                      progress := ((i + 1 : ℚ) / (total : ℚ)) * 100 }
      | .error .abortError => (st, .stopped)
      | .error (.other _) =>
          scanLoop baseUrl total now env rest (i + 1)
            { st with stats := { st.stats with errors := st.stats.errors + 1 } }

/-- The sequence of states published by the loop: one snapshot per
iteration that got past the abort checks, taken after that iteration's
`setResults`/`setStats`/`setProgress` batch. -/
def scanTrace (baseUrl : String) (total : Nat) (now : Nat → String)
    (env : Nat → IterEvent) :
    List String → Nat → ScanState → List ScanState
  | [], _, _ => []
  | p :: rest, i, st =>
    match env i with
    | .abortedAtTop => []
    | .probe f =>
      match checkPath baseUrl p (now i) f with
      | .ok r =>
          let stats :=
            if r.found then { st.stats with found := st.stats.found + 1 }
            else { st.stats with notFound := st.stats.notFound + 1 }
          let st :=
            { st with results := r :: st.results, stats := stats,
                      progress := ((i + 1 : ℚ) / (total : ℚ)) * 100 }
          st :: scanTrace baseUrl total now env rest (i + 1) st
      | .error .abortError => []
      | .error (.other _) =>
          let st := { st with stats := { st.stats with errors := st.stats.errors + 1 } }
          st :: scanTrace baseUrl total now env rest (i + 1) st

/-- The state `startScan` resets to before probing
(`src/directory_fuzzer.tsx` lines 71–75). -/
def resetState : ScanState :=
  { isScanning := true, isPaused := false, results := [],
    progress := 0, stats := { found := 0, notFound := 0, errors := 0 } }

/-- `startScan` (`src/directory_fuzzer.tsx` lines 65–120), from a previous
component state `prev`.  The guard `if (!targetUrl.trim())` shows an alert
and returns without touching any state — modelled by returning `prev`
paired with `none` (no scan ran).  Otherwise the state is reset, the
target resolved, the loop run, and finally `isScanning`/`isPaused` are
cleared; the `ScanEnd` tag reports whether the loop completed or was
stopped. -/
def startScan (prev : ScanState) (targetUrl : String) (paths : List String)
    (env : Nat → IterEvent) (now : Nat → String) :
    ScanState × Option ScanEnd :=
  if trimS targetUrl = "" then (prev, none)
  else
    let baseUrl := normalizeUrl targetUrl
    let out := scanLoop baseUrl paths.length now env paths 0 resetState
    ({ out.1 with isScanning := false, isPaused := false }, some out.2)

/-- Every state the component passes through during a started scan: the
reset state, then one state per completed loop iteration.  Empty when the
target guard rejects the scan. -/
def startScanTrace (targetUrl : String) (paths : List String)
    (env : Nat → IterEvent) (now : Nat → String) : List ScanState :=
  if trimS targetUrl = "" then []
  else
    resetState ::
      scanTrace (normalizeUrl targetUrl) paths.length now env paths 0 resetState

/-- The inter-probe delay duration (`src/directory_fuzzer.tsx` line 110). -/
def interProbeDelayMs : Nat := 100

/-- Elapsed wall-clock time of `await new Promise(resolve =>
setTimeout(resolve, 100))` (line 110), given the time (in ms into the
wait) at which the abort signal fired, if it fired during the wait.  The
promise's executor only schedules the timer and holds no reference to the
abort signal, so the promise settles when — and only when — the timer
fires: the elapsed time is the full delay regardless of the signal. -/
def delayElapsed (signalFiredAt : Option Nat) : Nat :=
  match signalFiredAt with
  | _ => interProbeDelayMs

/-! ## Concrete instantiation data -/

/-- A quiescent component state, used as the previous state in concrete
instantiations. -/
def idleState : ScanState :=
  { isScanning := false, isPaused := false, results := [], progress := 0,
    stats := { found := 0, notFound := 0, errors := 0 } }

/-- An environment where every fetch resolves with an opaque response. -/
def envOk : Nat → IterEvent := fun _ => .probe .opaqueOk

/-- An environment whose first fetch fails with a transport error and
whose remaining fetches resolve. -/
def envErrFirst : Nat → IterEvent := fun i =>
  if i = 0 then .probe (.transportError "Failed to fetch") else .probe .opaqueOk

/-- An environment where the abort signal fires after the first probe
completes. -/
def envStopAfterOne : Nat → IterEvent := fun i =>
  if i = 0 then .probe .opaqueOk else .abortedAtTop

/-- A constant timestamp source. -/
def nowT : Nat → String := fun _ => "t"

/-! ## Helper lemmas -/

/-- `checkPath` never throws anything but `AbortError`: the JS code
catches every error and rethrows only when `error.name === 'AbortError'`. -/
theorem checkPath_ne_other (baseUrl path now : String) (f : FetchOutcome)
    (msg : String) : checkPath baseUrl path now f ≠ .error (.other msg) := by
  cases f <;> simp [checkPath]

/-- A non-aborting probe makes `checkPath` return a record whose `path`
field is the probed candidate. -/
theorem nonAborting_checkPath (baseUrl p now : String) (f : FetchOutcome)
    (hf : (IterEvent.probe f).nonAborting = true) :
    ∃ r, checkPath baseUrl p now f = .ok r ∧ r.path = p := by
  cases f with
  | opaqueOk => exact ⟨_, rfl, rfl⟩
  | transportError msg => exact ⟨_, rfl, rfl⟩
  | abortError => simp [IterEvent.nonAborting] at hf

/-- If no iteration aborts, the loop completes, probing each candidate
once and prepending one record per candidate. -/
theorem scanLoop_nonAborting (baseUrl : String) (total : Nat)
    (now : Nat → String) (env : Nat → IterEvent) (paths : List String) :
    ∀ (i : Nat) (st : ScanState),
      (∀ j, j < paths.length → (env (i + j)).nonAborting = true) →
      (scanLoop baseUrl total now env paths i st).2 = .completed ∧
      (scanLoop baseUrl total now env paths i st).1.results.length
        = paths.length + st.results.length ∧
      (scanLoop baseUrl total now env paths i st).1.results.map ProbeResult.path
        = paths.reverse ++ st.results.map ProbeResult.path := by
  induction paths with
  | nil => intro i st _; simp [scanLoop]
  | cons p rest ih =>
    intro i st h
    have h0 : (env i).nonAborting = true := by simpa using h 0 (by simp)
    cases henv : env i with
    | abortedAtTop => rw [henv] at h0; simp [IterEvent.nonAborting] at h0
    | probe f =>
      rw [henv] at h0
      obtain ⟨r, hr, hpath⟩ := nonAborting_checkPath baseUrl p (now i) f h0
      have hrec : ∀ j, j < rest.length → (env (i + 1 + j)).nonAborting = true := by
        intro j hj
        have := h (j + 1) (by simpa using Nat.succ_lt_succ hj)
        simpa [Nat.add_comm, Nat.add_assoc, Nat.add_left_comm] using this
      simp only [scanLoop, henv, hr]
      refine ⟨(ih (i + 1) _ hrec).1, ?_, ?_⟩
      · rw [(ih (i + 1) _ hrec).2.1]
        simp; omega
      · rw [(ih (i + 1) _ hrec).2.2]
        simp [hpath]

/-- If the first `k` iterations do not abort and the abort signal is
observed at iteration `k` (either at the top of the loop or as an
`AbortError` from the in-flight fetch), the loop stops with exactly `k`
new records. -/
theorem scanLoop_stopAt (baseUrl : String) (total : Nat)
    (now : Nat → String) (env : Nat → IterEvent) (k : Nat) :
    ∀ (paths : List String) (i : Nat) (st : ScanState),
      k < paths.length →
      (∀ j, j < k → (env (i + j)).nonAborting = true) →
      (env (i + k) = .abortedAtTop ∨ env (i + k) = .probe .abortError) →
      (scanLoop baseUrl total now env paths i st).2 = .stopped ∧
      (scanLoop baseUrl total now env paths i st).1.results.length
        = k + st.results.length := by
  induction k with
  | zero =>
    intro paths i st hk _ habort
    cases paths with
    | nil => simp at hk
    | cons p rest =>
      rcases habort with h | h
      · rw [Nat.add_zero] at h
        simp [scanLoop, h]
      · rw [Nat.add_zero] at h
        simp [scanLoop, h, checkPath]
  | succ k ih =>
    intro paths i st hk hlive habort
    cases paths with
    | nil => simp at hk
    | cons p rest =>
      have h0 : (env i).nonAborting = true := by
        simpa using hlive 0 (Nat.succ_pos k)
      cases henv : env i with
      | abortedAtTop => rw [henv] at h0; simp [IterEvent.nonAborting] at h0
      | probe f =>
        rw [henv] at h0
        obtain ⟨r, hr, _⟩ := nonAborting_checkPath baseUrl p (now i) f h0
        have hlive' : ∀ j, j < k → (env (i + 1 + j)).nonAborting = true := by
          intro j hj
          have := hlive (j + 1) (Nat.succ_lt_succ hj)
          simpa [Nat.add_comm, Nat.add_assoc, Nat.add_left_comm] using this
        have habort' : env (i + 1 + k) = .abortedAtTop ∨
            env (i + 1 + k) = .probe .abortError := by
          have : i + 1 + k = i + (k + 1) := by omega
          rw [this]; exact habort
        have hk' : k < rest.length := by simpa using Nat.lt_of_succ_lt_succ hk
        simp only [scanLoop, henv, hr]
        refine ⟨(ih rest (i + 1) _ hk' hlive' habort').1, ?_⟩
        rw [(ih rest (i + 1) _ hk' hlive' habort').2]
        simp; omega

/-- The statistics/result-count invariant: the three tallies sum to the
number of records produced. -/
def statsInv (st : ScanState) : Prop :=
  st.stats.found + st.stats.notFound + st.stats.errors = st.results.length

/-- The loop preserves `statsInv` at its end state and at every
intermediate published state. -/
theorem scanLoop_statsInv (baseUrl : String) (total : Nat)
    (now : Nat → String) (env : Nat → IterEvent) (paths : List String) :
    ∀ (i : Nat) (st : ScanState), statsInv st →
      statsInv (scanLoop baseUrl total now env paths i st).1 ∧
      ∀ s ∈ scanTrace baseUrl total now env paths i st, statsInv s := by
  induction paths with
  | nil => intro i st h; simpa [scanLoop, scanTrace] using h
  | cons p rest ih =>
    intro i st h
    cases henv : env i with
    | abortedAtTop => simpa [scanLoop, scanTrace, henv] using h
    | probe f =>
      cases f with
      | opaqueOk =>
        have h' : statsInv
            { st with
              results := { path := p, url := baseUrl ++ "/" ++ p,
                           status := "Unknown (CORS)", found := true,
                           timestamp := now i } :: st.results,
              stats := { st.stats with found := st.stats.found + 1 },
              progress := ((i + 1 : ℚ) / (total : ℚ)) * 100 } := by
          simp only [statsInv] at h ⊢
          simp; omega
        have := ih (i + 1) _ h'
        simp only [scanLoop, scanTrace, henv, checkPath]
        simp only [List.mem_cons]
        refine ⟨by simpa using this.1, ?_⟩
        rintro s (rfl | hs)
        · exact h'
        · exact this.2 s (by simpa using hs)
      | transportError msg =>
        have h' : statsInv
            { st with
              results := { path := p, url := baseUrl ++ "/" ++ p,
                           status := msg, found := false,
                           timestamp := now i } :: st.results,
              stats := { st.stats with notFound := st.stats.notFound + 1 },
              progress := ((i + 1 : ℚ) / (total : ℚ)) * 100 } := by
          simp only [statsInv] at h ⊢
          simp; omega
        have := ih (i + 1) _ h'
        simp only [scanLoop, scanTrace, henv, checkPath]
        simp only [List.mem_cons]
        refine ⟨by simpa using this.1, ?_⟩
        rintro s (rfl | hs)
        · exact h'
        · exact this.2 s (by simpa using hs)
      | abortError =>
        simpa [scanLoop, scanTrace, henv, checkPath] using h

/-- `trimS` returns the empty string exactly on whitespace-only (or
empty) input. -/
theorem trimS_eq_empty_iff (s : String) :
    trimS s = "" ↔ s.data.all Char.isWhitespace = true := by
  have key : ∀ l : List Char,
      (∀ x ∈ l.dropWhile Char.isWhitespace, Char.isWhitespace x) ↔
        ∀ x ∈ l, Char.isWhitespace x := by
    intro l
    induction l with
    | nil => simp
    | cons a t iht =>
      by_cases ha : Char.isWhitespace a
      · simp [List.dropWhile_cons, ha, iht]
      · simp [List.dropWhile_cons, ha]
  constructor
  · intro h
    have : ((s.data.dropWhile Char.isWhitespace).reverse.dropWhile
        Char.isWhitespace).reverse = [] := congrArg String.data h
    rw [List.reverse_eq_nil_iff, List.dropWhile_eq_nil_iff] at this
    simp only [List.mem_reverse] at this
    rw [List.all_eq_true]
    intro x hx
    exact (key s.data).mp this x hx
  · intro h
    rw [List.all_eq_true] at h
    have : s.data.dropWhile Char.isWhitespace = [] :=
      List.dropWhile_eq_nil_iff.mpr fun x hx => h x hx
    simp [trimS, this]

/-- `endsWithS` agrees with the list-suffix relation. -/
theorem endsWithS_iff (suf s : String) :
    endsWithS suf s = true ↔ suf.data <:+ s.data := by
  simp [endsWithS]

/-! ## Claim theorems -/

/-- Claim C1 as stated is false at a concrete input: a completed
two-candidate scan yields two records but stores them newest-first, so the
stored sequence is not in wordlist order. -/
theorem c1_counterexample :
    (startScan idleState "example.com" ["admin", "login"] envOk nowT).2
      = some ScanEnd.completed ∧
    (startScan idleState "example.com" ["admin", "login"] envOk nowT).1.results.length
      = 2 ∧
    ¬ ((startScan idleState "example.com" ["admin", "login"] envOk nowT).1.results.map
        ProbeResult.path = ["admin", "login"]) :=
  ⟨by decide, by decide, by decide⟩

/-- Claim C1 (amended): a scan that runs to completion produces exactly
`|W|` Probe Results, one per candidate, probed in wordlist order but
stored newest-first — the stored sequence is the reverse of the wordlist,
the record at index `i` corresponding to wordlist entry `|W| - 1 - i`. -/
theorem c1_completed_scan_results (prev : ScanState) (target : String)
    (paths : List String) (env : Nat → IterEvent) (now : Nat → String)
    (htarget : trimS target ≠ "")
    (hlive : ∀ j, j < paths.length → (env j).nonAborting = true) :
    (startScan prev target paths env now).2 = some ScanEnd.completed ∧
    (startScan prev target paths env now).1.results.length = paths.length ∧
    (startScan prev target paths env now).1.results.map ProbeResult.path
      = paths.reverse := by
  have h := scanLoop_nonAborting (normalizeUrl target) paths.length now env paths 0
    resetState (by simpa using hlive)
  simp only [startScan, if_neg htarget]
  exact ⟨by simp [h.1], by simpa [resetState] using h.2.1,
    by simpa [resetState] using h.2.2⟩

/-- Witness for C1 at a concrete completed scan. -/
theorem c1_witness :
    (startScan idleState "example.com" ["admin", "login"] envOk nowT).2
      = some ScanEnd.completed ∧
    (startScan idleState "example.com" ["admin", "login"] envOk nowT).1.results.length
      = (["admin", "login"] : List String).length ∧
    (startScan idleState "example.com" ["admin", "login"] envOk nowT).1.results.map
        ProbeResult.path = (["admin", "login"] : List String).reverse :=
  c1_completed_scan_results idleState "example.com" ["admin", "login"] envOk nowT
    (by decide) (fun _ _ => rfl)

/-- Claim C2: at every published point during a scan, and at its end,
`found + notFound + errors` equals the number of Probe Results produced so
far — each appended record comes with exactly one statistic increment. -/
theorem c2_stats_sum_results (prev : ScanState) (target : String)
    (paths : List String) (env : Nat → IterEvent) (now : Nat → String)
    (htarget : trimS target ≠ "") :
    (∀ st ∈ startScanTrace target paths env now,
        st.stats.found + st.stats.notFound + st.stats.errors
          = st.results.length) ∧
    (startScan prev target paths env now).1.stats.found
        + (startScan prev target paths env now).1.stats.notFound
        + (startScan prev target paths env now).1.stats.errors
      = (startScan prev target paths env now).1.results.length := by
  have h0 : statsInv resetState := by simp [statsInv, resetState]
  have h := scanLoop_statsInv (normalizeUrl target) paths.length now env paths 0
    resetState h0
  constructor
  · intro st hst
    simp only [startScanTrace, if_neg htarget, List.mem_cons] at hst
    rcases hst with rfl | hst
    · exact h0
    · exact h.2 st hst
  · simp only [startScan, if_neg htarget]
    simpa [statsInv] using h.1

/-- Witness for C2 at a concrete scan. -/
theorem c2_witness :
    (∀ st ∈ startScanTrace "example.com" ["admin"] envOk nowT,
        st.stats.found + st.stats.notFound + st.stats.errors
          = st.results.length) ∧
    (startScan idleState "example.com" ["admin"] envOk nowT).1.stats.found
        + (startScan idleState "example.com" ["admin"] envOk nowT).1.stats.notFound
        + (startScan idleState "example.com" ["admin"] envOk nowT).1.stats.errors
      = (startScan idleState "example.com" ["admin"] envOk nowT).1.results.length :=
  c2_stats_sum_results idleState "example.com" ["admin"] envOk nowT (by decide)

/-- Claim C3: the code classifies a probe with unobservable status as a
confirmed finding — for an opaque no-cors response `checkPath` returns
`found := true` (only the status string `'Unknown (CORS)'` marks the
degraded mode) and the scan counts the probe in the `found` statistic. -/
theorem c3_opaque_classified_found :
    checkPath "https://example.com" "admin" "t" FetchOutcome.opaqueOk
      = Except.ok { path := "admin", url := "https://example.com/admin",
                    status := "Unknown (CORS)", found := true, timestamp := "t" } ∧
    (startScan idleState "example.com" ["admin"] envOk nowT).1.stats
      = { found := 1, notFound := 0, errors := 0 } :=
  ⟨rfl, by decide⟩

/-- Claim C4: if the abort signal fires after exactly `k` candidates have
been processed — observed either at the top of the loop or as an
`AbortError` from the in-flight fetch — the scan ends Stopped with exactly
`k` Probe Results; the returned state is final, so no further records
appear however long the caller awaits. -/
theorem c4_stop_after_k (prev : ScanState) (target : String)
    (paths : List String) (env : Nat → IterEvent) (now : Nat → String)
    (k : Nat) (htarget : trimS target ≠ "") (hk : k < paths.length)
    (hlive : ∀ j, j < k → (env j).nonAborting = true)
    (habort : env k = .abortedAtTop ∨ env k = .probe .abortError) :
    (startScan prev target paths env now).2 = some ScanEnd.stopped ∧
    (startScan prev target paths env now).1.results.length = k := by
  have h := scanLoop_stopAt (normalizeUrl target) paths.length now env k paths 0
    resetState hk (by simpa using hlive) (by simpa using habort)
  simp only [startScan, if_neg htarget]
  exact ⟨by simp [h.1], by simpa [resetState] using h.2⟩

/-- Witness for C4: stop after one of two candidates. -/
theorem c4_witness :
    (startScan idleState "example.com" ["admin", "login"] envStopAfterOne nowT).2
      = some ScanEnd.stopped ∧
    (startScan idleState "example.com" ["admin", "login"] envStopAfterOne nowT).1.results.length
      = 1 :=
  c4_stop_after_k idleState "example.com" ["admin", "login"] envStopAfterOne nowT 1
    (by decide) (by decide) (by decide) (Or.inl (by decide))

/-- Claim C5: for every non-empty raw input the resolver prepends the
default secure scheme `https://` exactly when the input lacks a recognized
scheme prefix and strips exactly one trailing separator if present — it
coincides with the spec-worded contract `resolveSpec` — and in particular
maps `"example.com"` to `"https://example.com"` and
`"http://example.com/"` to `"http://example.com"`. -/
theorem c5_resolver_matches_spec :
    (∀ u : String, u ≠ "" → normalizeUrl u = resolveSpec u) ∧
    normalizeUrl "example.com" = "https://example.com" ∧
    normalizeUrl "http://example.com/" = "http://example.com" := by
  refine ⟨fun u _ => ?_, by decide, by decide⟩
  simp only [normalizeUrl, resolveSpec, schemeQualified]
  cases h1 : startsWithS "http://" u <;> cases h2 : startsWithS "https://" u <;>
    simp [h1, h2]

/-- Witness for C5 at a concrete input with a trailing separator. -/
theorem c5_witness : normalizeUrl "site.io/" = resolveSpec "site.io/" :=
  c5_resolver_matches_spec.1 "site.io/" (by decide)

/-- Claim C6: when the target is empty or whitespace-only, `startScan`
rejects it before any probing — the outcome is the same for every probe
environment and wordlist — the previous state is returned untouched, and
no scan state is ever published. -/
theorem c6_invalid_target_rejected (prev : ScanState) (target : String)
    (paths : List String) (env : Nat → IterEvent) (now : Nat → String)
    (h : target.data.all Char.isWhitespace = true) :
    startScan prev target paths env now = (prev, none) ∧
    startScanTrace target paths env now = [] := by
  have ht : trimS target = "" := (trimS_eq_empty_iff target).mpr h
  constructor <;> simp [startScan, startScanTrace, ht]

/-- Witness for C6 at a whitespace-only target. -/
theorem c6_witness :
    startScan idleState "   " ["admin"] envOk nowT = (idleState, none) ∧
    startScanTrace "   " ["admin"] envOk nowT = [] :=
  c6_invalid_target_rejected idleState "   " ["admin"] envOk nowT (by decide)

/-- Claim C7: a transport error never aborts the scan — the loop records
the failure and continues to the remaining candidates — but the code
records it as a `found = false` record (status the error message) counted
in `notFound`, not as an Error-outcome record with the `errors` statistic
incremented: a transport error on the first of two candidates leaves the
scan completing with two records and statistics
`{found := 1, notFound := 1, errors := 0}`. -/
theorem c7_transport_error_recovery :
    (startScan idleState "example.com" ["admin", "login"] envErrFirst nowT).2
      = some ScanEnd.completed ∧
    (startScan idleState "example.com" ["admin", "login"] envErrFirst nowT).1.results.length
      = 2 ∧
    (startScan idleState "example.com" ["admin", "login"] envErrFirst nowT).1.stats
      = { found := 1, notFound := 1, errors := 0 } ∧
    (startScan idleState "example.com" ["admin", "login"] envErrFirst nowT).1.results.map
        ProbeResult.status = ["Unknown (CORS)", "Failed to fetch"] ∧
    (startScan idleState "example.com" ["admin", "login"] envErrFirst nowT).1.results.map
        ProbeResult.found = [true, false] :=
  ⟨by decide, by decide, by decide, by decide, by decide⟩

/-- Claim C8: the inter-probe delay is not abortable — the `setTimeout`
promise holds no reference to the abort signal, so even a stop request at
the very start of the wait leaves the full 100 ms delay in place rather
than ending the wait immediately. -/
theorem c8_delay_not_abortable :
    delayElapsed (some 0) = interProbeDelayMs ∧
    interProbeDelayMs = 100 ∧
    delayElapsed (some 0) ≠ 0 :=
  ⟨rfl, rfl, by decide⟩

/-- Claim C9 as stated is false at a concrete input: only one trailing
separator is stripped, so `"http://example.com//"` resolves to a Base URL
that still ends with a path separator. -/
theorem c9_counterexample :
    endsWithS "/" (normalizeUrl "http://example.com//") = true ∧
    normalizeUrl "http://example.com//" = "http://example.com/" :=
  ⟨by decide, by decide⟩

/-- Claim C9 (amended): for every non-empty raw input, the Base URL ends
with a path separator exactly when the scheme-qualified input ends with
two or more separators — exactly one trailing separator is stripped, so
inputs whose qualified form ends with at most one separator resolve with
no trailing separator, while inputs ending with more than one keep the
extras. -/
theorem c9_trailing_separator (u : String) (_hu : u ≠ "") :
    endsWithS "/" (normalizeUrl u) = true ↔
      endsWithS "//" (schemeQualified u) = true := by
  have hslash : ("/" : String).data = ['/'] := by decide
  have hslash2 : ("//" : String).data = ['/', '/'] := by decide
  simp only [normalizeUrl]
  by_cases h : endsWithS "/" (schemeQualified u) = true
  · rw [if_pos h]
    rw [endsWithS_iff, hslash] at h
    obtain ⟨t, ht⟩ := h
    rw [endsWithS_iff, endsWithS_iff, hslash, hslash2]
    have hdata : (sliceDropLast (schemeQualified u)).data = t := by
      show (schemeQualified u).data.dropLast = t
      rw [← ht, List.dropLast_concat]
    rw [hdata, ← ht]
    constructor
    · rintro ⟨r, hr⟩
      refine ⟨r, ?_⟩
      rw [← hr, List.append_assoc]
      rfl
    · rintro ⟨r, hr⟩
      have hr' : (r ++ ['/']) ++ ['/'] = t ++ ['/'] := by
        rw [List.append_assoc]; exact hr
      exact ⟨r, List.append_cancel_right hr'⟩
  · rw [if_neg h]
    constructor
    · intro h2; exact absurd h2 h
    · intro h2
      exfalso
      apply h
      rw [endsWithS_iff, hslash2] at h2
      rw [endsWithS_iff, hslash]
      exact List.IsSuffix.trans ⟨['/'], rfl⟩ h2

/-- Witness for C9 at a concrete input ending in two separators. -/
theorem c9_witness : endsWithS "/" (normalizeUrl "x//") = true :=
  (c9_trailing_separator "x//" (by decide)).mpr (by decide)

/-- Claim C10: `checkPath` is total up to cancellation — it throws exactly
when the fetch was aborted, the thrown error is always `AbortError`, and
every returned record carries the probed candidate as its `path` and the
URL `base ++ "/" ++ path` as its `url`. -/
theorem c10_checkPath_total_up_to_abort (baseUrl path now : String)
    (f : FetchOutcome) :
    ((∃ e, checkPath baseUrl path now f = .error e) ↔ f = .abortError) ∧
    (∀ e, checkPath baseUrl path now f = .error e → e = .abortError) ∧
    (∀ r, checkPath baseUrl path now f = .ok r →
      r.path = path ∧ r.url = baseUrl ++ "/" ++ path) := by
  cases f with
  | opaqueOk =>
    refine ⟨by simp [checkPath], by simp [checkPath], ?_⟩
    intro r hr
    simp only [checkPath, Except.ok.injEq] at hr
    subst hr
    exact ⟨rfl, rfl⟩
  | transportError msg =>
    refine ⟨by simp [checkPath], by simp [checkPath], ?_⟩
    intro r hr
    simp only [checkPath, Except.ok.injEq] at hr
    subst hr
    exact ⟨rfl, rfl⟩
  | abortError =>
    refine ⟨by simp [checkPath], ?_, by simp [checkPath]⟩
    intro e he
    simp only [checkPath, Except.error.injEq] at he
    exact he.symm

/-- Witness for C10: an aborted fetch makes `checkPath` throw. -/
theorem c10_witness :
    ∃ e, checkPath "https://example.com" "admin" "t" FetchOutcome.abortError
      = Except.error e :=
  (c10_checkPath_total_up_to_abort "https://example.com" "admin" "t"
    FetchOutcome.abortError).1.mpr rfl

end DirFuzz
